import Mathlib

/-!
Verification development for the pitch-tools repository.

Two subsystems are embedded shallowly:

* `src/bundle/grid_layout.py` — the `GridLayout` wrapper around
  `QtWidgets.QGridLayout`.  The layout state is modelled as the list of
  placed items in insertion order; `getItemPosition(i)` returns the
  `(row, col, row_span, col_span)` tuple recorded for item `i`, and
  `addWidget(item, row, col, alignment)` appends an item with spans `1, 1`.
* `src/bundle/text_kind.py` — the text classifier.  Text is modelled as
  `List Char` (Python `str` is a sequence of code points).  The two pieces
  of behaviour that live in the Python standard library rather than in the
  repository — whether `ast.parse` succeeds, and the `pathlib` fallback
  test inside `looks_like_file_path` — are passed in as boolean-valued
  parameters, so every theorem below holds for every behaviour of those
  library calls.
-/

/-! ## Grid layout (src/bundle/grid_layout.py) -/

/-- One item tracked by the grid layout: the `(row, col, row_span, col_span)`
tuple that `QGridLayout.getItemPosition` reports for it.  Qt uses machine
integers; positions and spans are modelled as `Int`. -/
structure PlacedItem where
  row : Int
  col : Int
  row_span : Int
  col_span : Int
deriving DecidableEq, Repr

/-- Python `range(a, b)` over integers, as a list. -/
def intRange (a b : Int) : List Int :=
  (List.range (b - a).toNat).map (fun i : Nat => a + (i : Int))

/-- `bottom_row` as computed inside `get_last_filled_row`:
`row + (row_span - 1 if row_span > 0 else 0)`. -/
def bottomOf (it : PlacedItem) : Int :=
  it.row + (if it.row_span > 0 then it.row_span - 1 else 0)

/-- The running-maximum loop of `get_last_filled_row`: starting from
`last_row = init`, update `last_row` whenever `bottom_row > last_row`. -/
def glfrFold (items : List PlacedItem) (init : Int) : Int :=
  items.foldl (fun last it => if bottomOf it > last then bottomOf it else last) init

/-- `GridLayout.get_last_filled_row` (src/bundle/grid_layout.py:32-54). -/
def get_last_filled_row (items : List PlacedItem) : Int :=
  if items.length = 0 then -1 else glfrFold items (-1)

/-- The inner loop of `get_next_column`: append each column `c` of the
given range to the accumulator unless it is already present
(`if c not in occupied_columns: occupied_columns.append(c)`). -/
def dedupAppend (acc : List Int) (cs : List Int) : List Int :=
  cs.foldl (fun a c => if c ∈ a then a else a ++ [c]) acc

/-- The `occupied_columns` list built by `get_next_column`
(src/bundle/grid_layout.py:72-79): for every item whose row span contains
`row` (`item_row <= row < item_row + row_span`), the columns
`range(item_col, item_col + col_span)` are collected without duplicates. -/
def occupiedCols (items : List PlacedItem) (row : Int) : List Int :=
  items.foldl
    (fun acc it =>
      if it.row ≤ row ∧ row < it.row + it.row_span then
        dedupAppend acc (intRange it.col (it.col + it.col_span))
      else acc)
    []

/-- Insert `x` into an already ascending list, keeping it ascending. -/
def insertSorted (x : Int) : List Int → List Int
  | [] => [x]
  | y :: ys => if x ≤ y then x :: y :: ys else y :: insertSorted x ys

/-- Behavioural model of Python `list.sort()` on a list of integers. -/
def sortInts (l : List Int) : List Int := l.foldr insertSorted []

/-- The final scan of `get_next_column` (src/bundle/grid_layout.py:86-92):
walk the sorted occupied columns with `expected_col`, returning the first
expected value that is missing. -/
def firstGap : List Int → Int → Int
  | [], e => e
  | c :: rest, e => if c ≠ e then e else firstGap rest (e + 1)

/-- `GridLayout.get_next_column` (src/bundle/grid_layout.py:56-92). -/
def get_next_column (items : List PlacedItem) (row : Int) : Int :=
  if items.length = 0 then 0
  else if occupiedCols items row = [] then 0
  else firstGap (sortInts (occupiedCols items row)) 0

/-- `GridLayout.add_to_next_row` (src/bundle/grid_layout.py:103-108).
`_add_item` calls `addWidget`/`addLayout` with only `(row, col)`, so the new
item is appended with spans `1, 1`.  The Python method is annotated
`-> None` and has no `return` statement; its return value is modelled as
`Option (Int × Int)` (Python `None` ↦ `none`) so that statements about a
claimed coordinate return value can be expressed. -/
def add_to_next_row (items : List PlacedItem) : List PlacedItem × Option (Int × Int) :=
  (items ++ [⟨get_last_filled_row items + 1, 0, 1, 1⟩], none)

/-- `GridLayout.add_to_next_column` (src/bundle/grid_layout.py:110-119).
`row = get_last_filled_row(); if row < 0: row = 0; col = get_next_column(row)`;
the item is appended at `(row, col)` with spans `1, 1`, and the method
returns Python `None` (modelled as `none`). -/
def add_to_next_column (items : List PlacedItem) : List PlacedItem × Option (Int × Int) :=
  let row0 := get_last_filled_row items
  let row := if row0 < 0 then 0 else row0
  (items ++ [⟨row, get_next_column items row, 1, 1⟩], none)

/-- Item `it` occupies the grid cell `(r, c)`. -/
def OccupiesCell (it : PlacedItem) (r c : Int) : Prop :=
  it.row ≤ r ∧ r < it.row + it.row_span ∧ it.col ≤ c ∧ c < it.col + it.col_span

instance (it : PlacedItem) (r c : Int) : Decidable (OccupiesCell it r c) := by
  unfold OccupiesCell; infer_instance

/-- Column `c` is occupied at row `row`: some item whose row span includes
`row` covers column `c` (the spec's description of the occupied-column set). -/
def OccupiedInRow (items : List PlacedItem) (row c : Int) : Prop :=
  ∃ it ∈ items, (it.row ≤ row ∧ row < it.row + it.row_span) ∧
    it.col ≤ c ∧ c < it.col + it.col_span

instance (items : List PlacedItem) (row c : Int) : Decidable (OccupiedInRow items row c) := by
  unfold OccupiedInRow; infer_instance

/-- Well-formed item per the spec's data model (§3): non-negative position,
positive spans. -/
def WFItem (it : PlacedItem) : Prop :=
  0 ≤ it.row ∧ 0 ≤ it.col ∧ 1 ≤ it.row_span ∧ 1 ≤ it.col_span

instance (it : PlacedItem) : Decidable (WFItem it) := by
  unfold WFItem; infer_instance

/-- A grid state per the spec's data model: every tracked item is well formed. -/
def WFGrid (items : List PlacedItem) : Prop := ∀ it ∈ items, WFItem it

instance (items : List PlacedItem) : Decidable (WFGrid items) := by
  unfold WFGrid; infer_instance

/-- The occupied-cell sets of the tracked items are pairwise disjoint. -/
def DisjointGrid (items : List PlacedItem) : Prop :=
  items.Pairwise (fun a b => ∀ r c : Int, ¬(OccupiesCell a r c ∧ OccupiesCell b r c))

theorem mem_intRange {a b c : Int} : c ∈ intRange a b ↔ a ≤ c ∧ c < b := by
  unfold intRange
  rw [List.mem_map]
  constructor
  · rintro ⟨i, hi, rfl⟩
    rw [List.mem_range] at hi
    omega
  · rintro ⟨h1, h2⟩
    refine ⟨(c - a).toNat, ?_, by omega⟩
    rw [List.mem_range]
    omega

theorem glfrFold_nil (init : Int) : glfrFold [] init = init := rfl

theorem glfrFold_cons (it : PlacedItem) (rest : List PlacedItem) (init : Int) :
    glfrFold (it :: rest) init =
      glfrFold rest (if bottomOf it > init then bottomOf it else init) := rfl

theorem glfrFold_ge_init (items : List PlacedItem) :
    ∀ init : Int, init ≤ glfrFold items init := by
  induction items with
  | nil => intro init; simp [glfrFold_nil]
  | cons it rest ih =>
    intro init
    rw [glfrFold_cons]
    refine le_trans ?_ (ih _)
    split <;> omega

theorem glfrFold_ge_mem (items : List PlacedItem) :
    ∀ init : Int, ∀ it ∈ items, bottomOf it ≤ glfrFold items init := by
  induction items with
  | nil => intro init it h; cases h
  | cons a rest ih =>
    intro init it hit
    rw [glfrFold_cons]
    rcases List.mem_cons.mp hit with rfl | h
    · refine le_trans ?_ (glfrFold_ge_init rest _)
      split <;> omega
    · exact ih _ it h

theorem glfrFold_eq_init_or_mem (items : List PlacedItem) :
    ∀ init : Int, glfrFold items init = init ∨
      ∃ it ∈ items, glfrFold items init = bottomOf it := by
  induction items with
  | nil => intro init; exact Or.inl rfl
  | cons a rest ih =>
    intro init
    rw [glfrFold_cons]
    rcases ih (if bottomOf a > init then bottomOf a else init) with h | ⟨it, hmem, heq⟩
    · by_cases hb : bottomOf a > init
      · right
        exact ⟨a, List.mem_cons_self a rest, by rw [h, if_pos hb]⟩
      · left
        rw [h, if_neg hb]
    · right
      exact ⟨it, List.mem_cons_of_mem a hmem, heq⟩

theorem glfr_ge_mem (items : List PlacedItem) (it : PlacedItem) (hit : it ∈ items) :
    bottomOf it ≤ get_last_filled_row items := by
  unfold get_last_filled_row
  split
  · rename_i hlen
    rw [List.length_eq_zero] at hlen
    subst hlen
    cases hit
  · exact glfrFold_ge_mem items (-1) it hit

theorem dedupAppend_cons (acc : List Int) (c : Int) (rest : List Int) :
    dedupAppend acc (c :: rest) =
      dedupAppend (if c ∈ acc then acc else acc ++ [c]) rest := rfl

theorem dedupAppend_mem (cs : List Int) :
    ∀ (acc : List Int) (x : Int), x ∈ dedupAppend acc cs ↔ x ∈ acc ∨ x ∈ cs := by
  induction cs with
  | nil => intro acc x; simp [dedupAppend]
  | cons c rest ih =>
    intro acc x
    rw [dedupAppend_cons, ih]
    have hacc : x ∈ (if c ∈ acc then acc else acc ++ [c]) ↔ x ∈ acc ∨ x = c := by
      split
      · constructor
        · exact Or.inl
        · rintro (h | rfl) <;> assumption
      · simp [List.mem_append]
    rw [hacc, List.mem_cons]
    tauto

theorem dedupAppend_nodup (cs : List Int) :
    ∀ acc : List Int, acc.Nodup → (dedupAppend acc cs).Nodup := by
  induction cs with
  | nil => intro acc h; exact h
  | cons c rest ih =>
    intro acc h
    rw [dedupAppend_cons]
    apply ih
    by_cases hc : c ∈ acc
    · rwa [if_pos hc]
    · rw [if_neg hc]
      simp [List.nodup_append, h, hc]

theorem occupiedCols_cons (a : PlacedItem) (rest : List PlacedItem) (row : Int)
    (acc : List Int) :
    (a :: rest).foldl
        (fun acc it =>
          if it.row ≤ row ∧ row < it.row + it.row_span then
            dedupAppend acc (intRange it.col (it.col + it.col_span))
          else acc)
        acc =
      rest.foldl
        (fun acc it =>
          if it.row ≤ row ∧ row < it.row + it.row_span then
            dedupAppend acc (intRange it.col (it.col + it.col_span))
          else acc)
        (if a.row ≤ row ∧ row < a.row + a.row_span then
          dedupAppend acc (intRange a.col (a.col + a.col_span))
        else acc) := rfl

theorem occFold_mem (items : List PlacedItem) (row : Int) :
    ∀ (acc : List Int) (x : Int),
      x ∈ items.foldl
            (fun acc it =>
              if it.row ≤ row ∧ row < it.row + it.row_span then
                dedupAppend acc (intRange it.col (it.col + it.col_span))
              else acc)
            acc ↔
        x ∈ acc ∨ ∃ it ∈ items, (it.row ≤ row ∧ row < it.row + it.row_span) ∧
          it.col ≤ x ∧ x < it.col + it.col_span := by
  induction items with
  | nil => intro acc x; simp
  | cons a rest ih =>
    intro acc x
    rw [occupiedCols_cons, ih]
    have hstep : x ∈ (if a.row ≤ row ∧ row < a.row + a.row_span then
          dedupAppend acc (intRange a.col (a.col + a.col_span))
        else acc) ↔
        x ∈ acc ∨ ((a.row ≤ row ∧ row < a.row + a.row_span) ∧
          a.col ≤ x ∧ x < a.col + a.col_span) := by
      split
      · rename_i hcond
        rw [dedupAppend_mem, mem_intRange]
        tauto
      · rename_i hcond
        tauto
    rw [hstep]
    constructor
    · rintro ((h | h) | ⟨it, hit, h⟩)
      · exact Or.inl h
      · exact Or.inr ⟨a, List.mem_cons_self a rest, h⟩
      · exact Or.inr ⟨it, List.mem_cons_of_mem a hit, h⟩
    · rintro (h | ⟨it, hit, h⟩)
      · exact Or.inl (Or.inl h)
      · rcases List.mem_cons.mp hit with rfl | hm
        · exact Or.inl (Or.inr h)
        · exact Or.inr ⟨it, hm, h⟩

theorem occupiedCols_mem (items : List PlacedItem) (row x : Int) :
    x ∈ occupiedCols items row ↔ OccupiedInRow items row x := by
  unfold occupiedCols OccupiedInRow
  rw [occFold_mem]
  simp

theorem occupiedCols_nodup (items : List PlacedItem) (row : Int) :
    (occupiedCols items row).Nodup := by
  unfold occupiedCols
  generalize hacc : ([] : List Int) = acc
  have hn : acc.Nodup := by rw [← hacc]; exact List.nodup_nil
  clear hacc
  induction items generalizing acc with
  | nil => exact hn
  | cons a rest ih =>
    rw [occupiedCols_cons]
    apply ih
    split
    · exact dedupAppend_nodup _ acc hn
    · exact hn

theorem insertSorted_mem (x : Int) :
    ∀ (l : List Int) (y : Int), y ∈ insertSorted x l ↔ y = x ∨ y ∈ l := by
  intro l
  induction l with
  | nil => intro y; simp [insertSorted]
  | cons a rest ih =>
    intro y
    unfold insertSorted
    split
    · simp [List.mem_cons]
    · rw [List.mem_cons, ih, List.mem_cons]
      tauto

theorem insertSorted_nodup (x : Int) :
    ∀ l : List Int, l.Nodup → x ∉ l → (insertSorted x l).Nodup := by
  intro l
  induction l with
  | nil => intro _ _; simp [insertSorted]
  | cons a rest ih =>
    intro hn hx
    rw [List.nodup_cons] at hn
    unfold insertSorted
    split
    · rw [List.nodup_cons, List.nodup_cons]
      refine ⟨?_, hn⟩
      intro hmem
      exact hx hmem
    · rw [List.nodup_cons]
      constructor
      · intro hmem
        rcases (insertSorted_mem x rest a).mp hmem with rfl | hmem2
        · exact hx (List.mem_cons_self a rest)
        · exact hn.1 hmem2
      · exact ih hn.2 (fun h => hx (List.mem_cons_of_mem a h))

theorem insertSorted_sorted (x : Int) :
    ∀ l : List Int, l.Pairwise (· ≤ ·) → (insertSorted x l).Pairwise (· ≤ ·) := by
  intro l
  induction l with
  | nil => intro _; simp [insertSorted]
  | cons a rest ih =>
    intro hp
    rw [List.pairwise_cons] at hp
    unfold insertSorted
    split
    · rename_i hxa
      rw [List.pairwise_cons]
      refine ⟨?_, List.pairwise_cons.mpr hp⟩
      intro b hb
      rcases List.mem_cons.mp hb with rfl | hb2
      · exact hxa
      · exact le_trans hxa (hp.1 b hb2)
    · rename_i hxa
      rw [List.pairwise_cons]
      constructor
      · intro b hb
        rcases (insertSorted_mem x rest b).mp hb with rfl | hb2
        · omega
        · exact hp.1 b hb2
      · exact ih hp.2

theorem sortInts_mem (l : List Int) (y : Int) : y ∈ sortInts l ↔ y ∈ l := by
  induction l with
  | nil => simp [sortInts]
  | cons a rest ih =>
    show y ∈ insertSorted a (sortInts rest) ↔ _
    rw [insertSorted_mem, ih, List.mem_cons]

theorem sortInts_nodup (l : List Int) (h : l.Nodup) : (sortInts l).Nodup := by
  induction l with
  | nil => simp [sortInts]
  | cons a rest ih =>
    rw [List.nodup_cons] at h
    show (insertSorted a (sortInts rest)).Nodup
    refine insertSorted_nodup a (sortInts rest) (ih h.2) ?_
    intro hmem
    exact h.1 ((sortInts_mem rest a).mp hmem)

theorem sortInts_sorted (l : List Int) : (sortInts l).Pairwise (· ≤ ·) := by
  induction l with
  | nil => simp [sortInts]
  | cons a rest ih =>
    exact insertSorted_sorted a (sortInts rest) ih

theorem pairwise_lt_of_le_nodup (l : List Int)
    (hs : l.Pairwise (· ≤ ·)) (hn : l.Nodup) : l.Pairwise (· < ·) :=
  (hs.and hn).imp (fun h => lt_of_le_of_ne h.1 h.2)

theorem firstGap_spec :
    ∀ (l : List Int) (e : Int), l.Pairwise (· < ·) → (∀ x ∈ l, e ≤ x) →
      e ≤ firstGap l e ∧ firstGap l e ∉ l ∧
        ∀ k : Int, e ≤ k → k ∉ l → firstGap l e ≤ k := by
  intro l
  induction l with
  | nil =>
    intro e _ _
    exact ⟨le_refl e, by simp [firstGap], fun k hk _ => hk⟩
  | cons c rest ih =>
    intro e hp hge
    have hce : e ≤ c := hge c (List.mem_cons_self c rest)
    have hrest : ∀ x ∈ rest, c < x := fun x hx => List.rel_of_pairwise_cons hp hx
    by_cases hc : c = e
    · subst hc
      have hstep : firstGap (c :: rest) c = firstGap rest (c + 1) := by
        simp [firstGap]
      have hrec := ih (c + 1) hp.of_cons (fun x hx => by have := hrest x hx; omega)
      rw [hstep]
      refine ⟨by omega, ?_, ?_⟩
      · intro hmem
        rcases List.mem_cons.mp hmem with heq | hmem2
        · omega
        · exact hrec.2.1 hmem2
      · intro k hk hknot
        have hkc : k ≠ c := fun h => hknot (h ▸ List.mem_cons_self c rest)
        exact hrec.2.2 k (by omega) (fun h => hknot (List.mem_cons_of_mem c h))
    · have hstep : firstGap (c :: rest) e = e := by
        simp [firstGap, hc]
      rw [hstep]
      refine ⟨le_refl e, ?_, fun k hk _ => hk⟩
      intro hmem
      rcases List.mem_cons.mp hmem with heq | hmem2
      · exact hc heq.symm
      · have := hrest e hmem2
        omega

theorem get_next_column_spec (items : List PlacedItem) (row : Int)
    (hWF : WFGrid items) :
    0 ≤ get_next_column items row ∧
    ¬ OccupiedInRow items row (get_next_column items row) ∧
    ∀ k : Int, 0 ≤ k → ¬ OccupiedInRow items row k → get_next_column items row ≤ k := by
  unfold get_next_column
  split
  · rename_i hlen
    rw [List.length_eq_zero] at hlen
    subst hlen
    refine ⟨le_refl 0, ?_, fun k hk _ => hk⟩
    rintro ⟨it, hit, _⟩
    cases hit
  · split
    · rename_i hocc
      refine ⟨le_refl 0, ?_, fun k hk _ => hk⟩
      intro h
      have := (occupiedCols_mem items row 0).mpr h
      rw [hocc] at this
      cases this
    · rename_i hlen hocc
      have hnodup := sortInts_nodup _ (occupiedCols_nodup items row)
      have hsorted := sortInts_sorted (occupiedCols items row)
      have hstrict := pairwise_lt_of_le_nodup _ hsorted hnodup
      have hmem : ∀ x : Int, x ∈ sortInts (occupiedCols items row) ↔
          OccupiedInRow items row x := by
        intro x
        rw [sortInts_mem, occupiedCols_mem]
      have hpos : ∀ x ∈ sortInts (occupiedCols items row), (0 : Int) ≤ x := by
        intro x hx
        rcases (hmem x).mp hx with ⟨it, hit, _, hcol, _⟩
        have := (hWF it hit).2.1
        omega
      have h := firstGap_spec (sortInts (occupiedCols items row)) 0 hstrict hpos
      refine ⟨h.1, ?_, ?_⟩
      · intro hoc
        exact h.2.1 ((hmem _).mpr hoc)
      · intro k hk hknot
        exact h.2.2 k hk (fun hmem2 => hknot ((hmem k).mp hmem2))

/-- C4: for every grid state (well formed per the spec's data model, §3) and
every row, `get_next_column` returns the smallest non-negative integer not in
the set of columns occupied by items whose row span includes that row
(`item.row ≤ row < item.row + item.row_span`, contributing columns
`[item.col, item.col + item.col_span)`): the result is non-negative, is not
occupied in that row, and is at most every non-negative unoccupied column
(first-gap, not append-at-end). -/
theorem next_free_column_is_first_gap (items : List PlacedItem) (row : Int)
    (hWF : WFGrid items) :
    0 ≤ get_next_column items row ∧
    ¬ OccupiedInRow items row (get_next_column items row) ∧
    ∀ k : Int, 0 ≤ k → ¬ OccupiedInRow items row k → get_next_column items row ≤ k :=
  get_next_column_spec items row hWF

/-- C4 witness: with columns 0 and 2 of row 0 occupied and column 1 free,
`get_next_column` returns 1 (not 3), and the first-gap characterisation
holds at this concrete grid. -/
theorem next_free_column_is_first_gap_witness :
    WFGrid [⟨0, 0, 1, 1⟩, ⟨0, 2, 1, 1⟩] ∧
    get_next_column [⟨0, 0, 1, 1⟩, ⟨0, 2, 1, 1⟩] 0 = 1 ∧
    (0 ≤ get_next_column [⟨0, 0, 1, 1⟩, ⟨0, 2, 1, 1⟩] 0 ∧
     ¬ OccupiedInRow [⟨0, 0, 1, 1⟩, ⟨0, 2, 1, 1⟩] 0
        (get_next_column [⟨0, 0, 1, 1⟩, ⟨0, 2, 1, 1⟩] 0) ∧
     ∀ k : Int, 0 ≤ k → ¬ OccupiedInRow [⟨0, 0, 1, 1⟩, ⟨0, 2, 1, 1⟩] 0 k →
        get_next_column [⟨0, 0, 1, 1⟩, ⟨0, 2, 1, 1⟩] 0 ≤ k) :=
  ⟨by decide, by decide,
    next_free_column_is_first_gap [⟨0, 0, 1, 1⟩, ⟨0, 2, 1, 1⟩] 0 (by decide)⟩

/-- C8: on a grid state well formed per the spec's data model,
`get_last_filled_row` returns the maximum of `row + row_span - 1` over all
items, or -1 when the grid holds no items; moreover on the empty grid
`get_last_filled_row` is -1 and `get_next_column 0` is 0. -/
theorem last_filled_row_is_max (items : List PlacedItem) (hWF : WFGrid items) :
    (items = [] → get_last_filled_row items = -1) ∧
    (∀ it ∈ items, it.row + it.row_span - 1 ≤ get_last_filled_row items) ∧
    (items ≠ [] → ∃ it ∈ items, get_last_filled_row items = it.row + it.row_span - 1) ∧
    get_last_filled_row [] = -1 ∧ get_next_column [] 0 = 0 := by
  refine ⟨?_, ?_, ?_, rfl, rfl⟩
  · rintro rfl; rfl
  · intro it hit
    have hb := glfr_ge_mem items it hit
    have hspan := (hWF it hit).2.2.1
    unfold bottomOf at hb
    rw [if_pos (by omega)] at hb
    omega
  · intro hne
    have hlen : ¬ items.length = 0 := by
      simpa [List.length_eq_zero] using hne
    have heq : get_last_filled_row items = glfrFold items (-1) := by
      unfold get_last_filled_row
      rw [if_neg hlen]
    rcases glfrFold_eq_init_or_mem items (-1) with h | ⟨it, hmem, hfold⟩
    · exfalso
      rcases List.exists_mem_of_ne_nil items hne with ⟨it0, hit0⟩
      have hb := glfrFold_ge_mem items (-1) it0 hit0
      have hrow := (hWF it0 hit0).1
      have hspan := (hWF it0 hit0).2.2.1
      unfold bottomOf at hb
      rw [if_pos (by omega)] at hb
      omega
    · refine ⟨it, hmem, ?_⟩
      have hspan := (hWF it hmem).2.2.1
      rw [heq, hfold]
      unfold bottomOf
      rw [if_pos (by omega)]
      omega

/-- C8 witness: a concrete grid with a 2-row item; the bottom row is 1, the
bound from the theorem holds, and the empty-grid equalities hold. -/
theorem last_filled_row_is_max_witness :
    WFGrid [⟨0, 0, 2, 1⟩, ⟨1, 1, 1, 1⟩] ∧
    get_last_filled_row [⟨0, 0, 2, 1⟩, ⟨1, 1, 1, 1⟩] = 1 ∧
    (∀ it ∈ ([⟨0, 0, 2, 1⟩, ⟨1, 1, 1, 1⟩] : List PlacedItem),
      it.row + it.row_span - 1 ≤ get_last_filled_row [⟨0, 0, 2, 1⟩, ⟨1, 1, 1, 1⟩]) ∧
    get_last_filled_row [] = -1 ∧ get_next_column [] 0 = 0 :=
  ⟨by decide, by decide,
    (last_filled_row_is_max [⟨0, 0, 2, 1⟩, ⟨1, 1, 1, 1⟩] (by decide)).2.1,
    (last_filled_row_is_max [⟨0, 0, 2, 1⟩, ⟨1, 1, 1, 1⟩] (by decide)).2.2.2⟩

/-- C2 (counterexample): the claim says `add_to_next_row` returns `(row, 0)`
and `add_to_next_column` returns `(row, col)`; on the empty grid both methods
return Python `None` (modelled `none`), not the claimed coordinate pairs. -/
theorem add_methods_return_counterexample :
    (add_to_next_row []).2 ≠ some (get_last_filled_row [] + 1, 0) ∧
    (add_to_next_column []).2 ≠ some (0, get_next_column [] 0) := by
  constructor <;> decide

/-- C2 (amended): for every grid state, `add_to_next_row` computes
`row = get_last_filled_row() + 1`, appends the item at `(row, 0)` with spans
`1, 1`, and returns `None`; `add_to_next_column` computes
`row = max(get_last_filled_row(), 0)` and `col = get_next_column(row)`,
appends the item at `(row, col)` with spans `1, 1`, and returns `None`
(no coordinates are returned). -/
theorem add_methods_place_and_append (items : List PlacedItem) :
    add_to_next_row items =
      (items ++ [⟨get_last_filled_row items + 1, 0, 1, 1⟩], none) ∧
    add_to_next_column items =
      (items ++ [⟨max (get_last_filled_row items) 0,
        get_next_column items (max (get_last_filled_row items) 0), 1, 1⟩], none) := by
  constructor
  · rfl
  · have h : (if get_last_filled_row items < 0 then 0 else get_last_filled_row items)
        = max (get_last_filled_row items) 0 := by
      rw [max_def]
      split <;> split <;> omega
    show (items ++
        [⟨if get_last_filled_row items < 0 then 0 else get_last_filled_row items,
          get_next_column items
            (if get_last_filled_row items < 0 then 0 else get_last_filled_row items),
          1, 1⟩],
        (none : Option (Int × Int))) = _
    rw [h]

/-- C10: starting from a grid state that is well formed per the spec's data
model and whose items' occupied-cell sets are pairwise disjoint, inserting a
1×1 item via `add_to_next_row` or via `add_to_next_column` yields a grid
whose occupied-cell sets are still pairwise disjoint. -/
theorem insertion_preserves_disjointness (items : List PlacedItem)
    (hWF : WFGrid items) (hd : DisjointGrid items) :
    DisjointGrid (add_to_next_row items).1 ∧
    DisjointGrid (add_to_next_column items).1 := by
  constructor
  · show DisjointGrid (items ++ [⟨get_last_filled_row items + 1, 0, 1, 1⟩])
    unfold DisjointGrid
    rw [List.pairwise_append]
    refine ⟨hd, by simp, ?_⟩
    intro a ha b hb r c hcc
    rw [List.mem_singleton] at hb
    subst hb
    rcases hcc with ⟨hca, hcb⟩
    have hbot := glfr_ge_mem items a ha
    unfold OccupiesCell at hca hcb
    dsimp only at hcb
    unfold bottomOf at hbot
    split at hbot <;> omega
  · show DisjointGrid (items ++
      [⟨if get_last_filled_row items < 0 then 0 else get_last_filled_row items,
        get_next_column items
          (if get_last_filled_row items < 0 then 0 else get_last_filled_row items),
        1, 1⟩])
    unfold DisjointGrid
    rw [List.pairwise_append]
    refine ⟨hd, by simp, ?_⟩
    intro a ha b hb r c hcc
    rw [List.mem_singleton] at hb
    subst hb
    rcases hcc with ⟨hca, hcb⟩
    unfold OccupiesCell at hca hcb
    dsimp only at hcb
    refine (get_next_column_spec items
      (if get_last_filled_row items < 0 then 0 else get_last_filled_row items)
      hWF).2.1 ?_
    exact ⟨a, ha, ⟨by omega, by omega⟩, by omega, by omega⟩

/-- C10 witness: a concrete disjoint one-item grid stays disjoint under both
insertion methods. -/
theorem insertion_preserves_disjointness_witness :
    WFGrid [⟨0, 0, 1, 1⟩] ∧ DisjointGrid [⟨0, 0, 1, 1⟩] ∧
    (DisjointGrid (add_to_next_row [⟨0, 0, 1, 1⟩]).1 ∧
     DisjointGrid (add_to_next_column [⟨0, 0, 1, 1⟩]).1) :=
  ⟨by decide, by simp [DisjointGrid],
    insertion_preserves_disjointness [⟨0, 0, 1, 1⟩] (by decide)
      (by simp [DisjointGrid])⟩

/-! ## Text classifier (src/bundle/text_kind.py)

Text is `List Char`.  Two standard-library behaviours are parameters:
`pp trimmed` is whether `ast.parse(trimmed)` succeeds, and `fb line` is the
result of the `pathlib` fallback block inside `looks_like_file_path`. -/

/-- `TextKind` (src/bundle/text_kind.py:15-20). -/
inductive TextKind where
  | MAYA_DAG_PATHS
  | FILE_PATHS
  | PYTHON_SCRIPT
  | UNKNOWN
deriving DecidableEq, Repr

/-- The characters Python's `str.strip()` / `str.split()` treat as
whitespace (the `str.isspace` set). -/
def pyIsSpace (c : Char) : Bool :=
  c == ' ' || c == '\t' || c == '\n' || c == '\r' || c == '\x0b' || c == '\x0c' ||
  c == '\x1c' || c == '\x1d' || c == '\x1e' || c == '\x1f' || c == '\x85' ||
  c == '\xa0' || c == '\u1680' ||
  c == '\u2000' || c == '\u2001' || c == '\u2002' || c == '\u2003' ||
  c == '\u2004' || c == '\u2005' || c == '\u2006' || c == '\u2007' ||
  c == '\u2008' || c == '\u2009' || c == '\u200a' ||
  c == '\u2028' || c == '\u2029' || c == '\u202f' || c == '\u205f' || c == '\u3000'

/-- The line-boundary characters of Python `str.splitlines` (the two-character
boundary "\r\n" is handled separately). -/
def pyLineBreak (c : Char) : Bool :=
  c == '\n' || c == '\r' || c == '\x0b' || c == '\x0c' ||
  c == '\x1c' || c == '\x1d' || c == '\x1e' || c == '\x85' ||
  c == '\u2028' || c == '\u2029'

/-- Python `str.splitlines()`: split at line boundaries, treating "\r\n" as
one boundary, producing no trailing empty line after a final terminator. -/
def pySplitlines : List Char → List (List Char)
  | [] => []
  | [c] => if pyLineBreak c then [[]] else [[c]]
  | c :: c2 :: rest =>
    if c == '\r' && c2 == '\n' then [] :: pySplitlines rest
    else if pyLineBreak c then [] :: pySplitlines (c2 :: rest)
    else
      match pySplitlines (c2 :: rest) with
      | [] => [[c]]
      | l :: ls => (c :: l) :: ls

/-- Python `str.strip()` with no arguments. -/
def pyStrip (cs : List Char) : List Char :=
  ((cs.dropWhile pyIsSpace).reverse.dropWhile pyIsSpace).reverse

/-- Worker for `str.split()` with no arguments; `w` is the reversed current
word. -/
def pySplitGo : List Char → List Char → List (List Char)
  | [], w => if w.isEmpty then [] else [w.reverse]
  | c :: rest, w =>
    if pyIsSpace c then
      if w.isEmpty then pySplitGo rest [] else w.reverse :: pySplitGo rest []
    else pySplitGo rest (c :: w)

/-- Python `str.split()` with no arguments: split on whitespace runs,
discarding empty fields. -/
def pySplit (cs : List Char) : List (List Char) := pySplitGo cs []

/-- Python's substring test `pat in s`. -/
def isSubstrOf (pat : List Char) : List Char → Bool
  | [] => pat.isEmpty
  | c :: rest => pat.isPrefixOf (c :: rest) || isSubstrOf pat rest

/-- `_looks_like_windows_drive_path` (src/bundle/text_kind.py:28-36): the
anchored pattern of one ASCII letter, a colon, and a slash or backslash. -/
def windows_drive_path (line : List Char) : Bool :=
  match line with
  | c1 :: c2 :: c3 :: _ => c1.isAlpha && c2 == ':' && (c3 == '\\' || c3 == '/')
  | _ => false

/-- `_looks_like_posix_path` (src/bundle/text_kind.py:39-51). -/
def posix_path (line : List Char) : Bool :=
  match line with
  | '/' :: _ => true
  | '.' :: '/' :: _ => true
  | '.' :: '.' :: '/' :: _ => true
  | _ => false

/-- `_looks_like_unc_path` (src/bundle/text_kind.py:54-56): the anchored
pattern succeeds iff the line starts with two backslashes or two slashes
followed by at least one character that is not a slash, a backslash, or
whitespace (the trailing optional separator never affects success). -/
def unc_path (line : List Char) : Bool :=
  match line with
  | '\\' :: '\\' :: c :: _ => !(c == '\\' || c == '/' || pyIsSpace c)
  | '/' :: '/' :: c :: _ => !(c == '\\' || c == '/' || pyIsSpace c)
  | _ => false

/-- `_has_pathlike_separators` (src/bundle/text_kind.py:59-60). -/
def has_pathlike_separators (line : List Char) : Bool :=
  line.contains '\\' || line.contains '/'

/-- `looks_like_file_path` (src/bundle/text_kind.py:63-91).  `fb line` models
the final fallback block: `Path(line).name != line and len(str(Path(line))) > 1`,
with the caught `OSError`/`RuntimeError`/`ValueError` giving `False`.  It is a
parameter because `pathlib` normalisation is platform-dependent
standard-library behaviour, not repository code. -/
def looks_like_file_path (fb : List Char → Bool) (line : List Char) : Bool :=
  if !has_pathlike_separators line then false
  else if windows_drive_path line then true
  else if unc_path line then true
  else if posix_path line then true
  else fb line

/-- First character of a DAG-path segment: `[A-Za-z0-9_]`. -/
def mayaSegStart (c : Char) : Bool := c.isAlphanum || c == '_'

/-- Later characters of a DAG-path segment: `[A-Za-z0-9_:]`. -/
def mayaSegChar (c : Char) : Bool := c.isAlphanum || c == '_' || c == ':'

/-- The state machine of `_MAYA_PATH_RX` after the optional leading pipe:
in state `true` the next character must start a segment; in state `false` we
are inside a segment and may read further segment characters, a pipe
(starting a new segment), or the end anchor, which in Python also matches
just before one final newline.  The pattern is deterministic (segment
characters, the pipe and the newline are pairwise disjoint), so this run
computes exactly the regex's success. -/
def mayaRun : Bool → List Char → Bool
  | true, [] => false
  | true, c :: rest => mayaSegStart c && mayaRun false rest
  | false, [] => true
  | false, c :: rest =>
    if c = '\n' then rest.isEmpty
    else if c = '|' then mayaRun true rest
    else mayaSegChar c && mayaRun false rest

/-- `_MAYA_PATH_RX.match(line) is not None` (src/bundle/text_kind.py:115-116):
an optional leading pipe, then one or more pipe-separated segments.  Since a
segment cannot start with a pipe, the optional pipe is consumed exactly when
the line starts with one. -/
def maya_path_match : List Char → Bool
  | [] => false
  | c :: rest => if c == '|' then mayaRun true rest else mayaRun true (c :: rest)

/-- `looks_like_maya_dag_path` (src/bundle/text_kind.py:119-141). -/
def looks_like_maya_dag_path (fb : List Char → Bool) (line : List Char) : Bool :=
  if looks_like_file_path fb line then false
  else if line.contains ' ' || line.contains '\t' then false
  else maya_path_match line

/-- The structural hint tokens of `looks_like_python_script`
(src/bundle/text_kind.py:102-105). -/
def pyHintTokens : List (List Char) :=
  ["\n", ";", ":", "def ", "class ", "import ", "from ", "with ", "for ",
   "if "].map String.data

/-- `looks_like_python_script` (src/bundle/text_kind.py:94-112).  `pp trimmed`
models whether `ast.parse(trimmed)` succeeds (`false` for the caught
`SyntaxError`). -/
def looks_like_python_script (pp : List Char → Bool) (text : List Char) : Bool :=
  if (pyStrip text).isEmpty then false
  else if pp (pyStrip text) then
    pyHintTokens.any (fun tok => isSubstrOf tok (pyStrip text)) ||
      isSubstrOf (("\n").data) (pyStrip text) ||
      decide (3 < (pySplit (pyStrip text)).length)
  else false

/-- `split_nonempty_lines` (src/bundle/text_kind.py:23-25). -/
def split_nonempty_lines (text : List Char) : List (List Char) :=
  ((pySplitlines text).filter (fun ln => !(pyStrip ln).isEmpty)).map pyStrip

/-- `classify_text` (src/bundle/text_kind.py:144-165).  When the text holds
no non-empty line, the source evaluates `lines[0]` on an empty list and
raises `IndexError`; that failure is modelled as `none`. -/
def classify_text (pp fb : List Char → Bool) (text : List Char) : Option TextKind :=
  if looks_like_python_script pp text then some TextKind.PYTHON_SCRIPT
  else
    match split_nonempty_lines text with
    | [] => none
    | l0 :: _ =>
      if looks_like_file_path fb l0 then some TextKind.FILE_PATHS
      else if looks_like_maya_dag_path fb l0 then some TextKind.MAYA_DAG_PATHS
      else some TextKind.UNKNOWN

theorem mem_pySplitlines (cs : List Char) :
    ∀ l ∈ pySplitlines cs, ∀ c ∈ l, c ∈ cs := by
  induction cs using pySplitlines.induct with
  | case1 => intro l hl; cases hl
  | case2 c0 hbr =>
    intro l hl c hc
    simp only [pySplitlines, if_pos hbr] at hl
    rcases List.mem_singleton.mp hl with rfl
    cases hc
  | case3 c0 hbr =>
    intro l hl c hc
    simp only [pySplitlines, if_neg hbr] at hl
    rcases List.mem_singleton.mp hl with rfl
    rcases List.mem_singleton.mp hc with rfl
    exact List.mem_cons_self _ _
  | case4 c0 c2 rest hrn ih =>
    intro l hl c hc
    simp only [pySplitlines, if_pos hrn] at hl
    rcases List.mem_cons.mp hl with rfl | hl2
    · cases hc
    · exact List.mem_cons_of_mem _ (List.mem_cons_of_mem _ (ih l hl2 c hc))
  | case5 c0 c2 rest hrn hbr ih =>
    intro l hl c hc
    simp only [pySplitlines, if_neg hrn, if_pos hbr] at hl
    rcases List.mem_cons.mp hl with rfl | hl2
    · cases hc
    · exact List.mem_cons_of_mem _ (ih l hl2 c hc)
  | case6 c0 c2 rest hrn hbr hrec ih =>
    intro l hl c hc
    simp only [pySplitlines, if_neg hrn, if_neg hbr, hrec] at hl
    rcases List.mem_singleton.mp hl with rfl
    rcases List.mem_singleton.mp hc with rfl
    exact List.mem_cons_self _ _
  | case7 c0 c2 rest hrn hbr l1 ls hrec ih =>
    intro l hl c hc
    simp only [pySplitlines, if_neg hrn, if_neg hbr, hrec] at hl
    rcases List.mem_cons.mp hl with rfl | hl2
    · rcases List.mem_cons.mp hc with rfl | hc2
      · exact List.mem_cons_self _ _
      · exact List.mem_cons_of_mem _
          (ih l1 (hrec ▸ List.mem_cons_self l1 ls) c hc2)
    · exact List.mem_cons_of_mem _
        (ih l (hrec ▸ List.mem_cons_of_mem l1 hl2) c hc)

theorem noBreak_pySplitlines (cs : List Char) :
    ∀ l ∈ pySplitlines cs, ∀ c ∈ l, pyLineBreak c = false := by
  induction cs using pySplitlines.induct with
  | case1 => intro l hl; cases hl
  | case2 c0 hbr =>
    intro l hl c hc
    simp only [pySplitlines, if_pos hbr] at hl
    rcases List.mem_singleton.mp hl with rfl
    cases hc
  | case3 c0 hbr =>
    intro l hl c hc
    simp only [pySplitlines, if_neg hbr] at hl
    rcases List.mem_singleton.mp hl with rfl
    rcases List.mem_singleton.mp hc with rfl
    exact Bool.of_not_eq_true hbr
  | case4 c0 c2 rest hrn ih =>
    intro l hl c hc
    simp only [pySplitlines, if_pos hrn] at hl
    rcases List.mem_cons.mp hl with rfl | hl2
    · cases hc
    · exact ih l hl2 c hc
  | case5 c0 c2 rest hrn hbr ih =>
    intro l hl c hc
    simp only [pySplitlines, if_neg hrn, if_pos hbr] at hl
    rcases List.mem_cons.mp hl with rfl | hl2
    · cases hc
    · exact ih l hl2 c hc
  | case6 c0 c2 rest hrn hbr hrec ih =>
    intro l hl c hc
    simp only [pySplitlines, if_neg hrn, if_neg hbr, hrec] at hl
    rcases List.mem_singleton.mp hl with rfl
    rcases List.mem_singleton.mp hc with rfl
    exact Bool.of_not_eq_true hbr
  | case7 c0 c2 rest hrn hbr l1 ls hrec ih =>
    intro l hl c hc
    simp only [pySplitlines, if_neg hrn, if_neg hbr, hrec] at hl
    rcases List.mem_cons.mp hl with rfl | hl2
    · rcases List.mem_cons.mp hc with rfl | hc2
      · exact Bool.of_not_eq_true hbr
      · exact ih l1 (hrec ▸ List.mem_cons_self l1 ls) c hc2
    · exact ih l (hrec ▸ List.mem_cons_of_mem l1 hl2) c hc

theorem mem_pyStrip {l : List Char} {c : Char} (h : c ∈ pyStrip l) : c ∈ l := by
  unfold pyStrip at h
  rw [List.mem_reverse] at h
  have h1 := (List.dropWhile_sublist (l := (l.dropWhile pyIsSpace).reverse)
    (p := pyIsSpace)).subset h
  rw [List.mem_reverse] at h1
  exact (List.dropWhile_sublist (l := l) (p := pyIsSpace)).subset h1

theorem split_nonempty_lines_mem {text l0 : List Char}
    (h : l0 ∈ split_nonempty_lines text) :
    (∀ c ∈ l0, c ∈ text) ∧ (∀ c ∈ l0, pyLineBreak c = false) := by
  unfold split_nonempty_lines at h
  rw [List.mem_map] at h
  rcases h with ⟨ln, hln, rfl⟩
  rw [List.mem_filter] at hln
  constructor
  · intro c hc
    exact mem_pySplitlines text ln hln.1 c (mem_pyStrip hc)
  · intro c hc
    exact noBreak_pySplitlines text ln hln.1 c (mem_pyStrip hc)

theorem looks_like_file_path_iff (fb : List Char → Bool) (line : List Char) :
    looks_like_file_path fb line = true ↔
      has_pathlike_separators line = true ∧
        (windows_drive_path line = true ∨ unc_path line = true ∨
         posix_path line = true ∨ fb line = true) := by
  unfold looks_like_file_path
  cases h0 : has_pathlike_separators line <;>
    cases h1 : windows_drive_path line <;>
      cases h2 : unc_path line <;>
        cases h3 : posix_path line <;> simp

theorem mayaSegStart_imp_segChar {c : Char} (h : mayaSegStart c = true) :
    mayaSegChar c = true := by
  simp only [mayaSegStart, Bool.or_eq_true] at h
  simp only [mayaSegChar, Bool.or_eq_true]
  tauto

theorem mayaRun_chars :
    ∀ (l : List Char) (s : Bool), mayaRun s l = true →
      ∀ c ∈ l, mayaSegChar c = true ∨ c = '|' ∨ c = '\n' := by
  intro l
  induction l with
  | nil => intro s _ c hc; cases hc
  | cons c0 rest ih =>
    intro s h c hc
    cases s
    · rw [show mayaRun false (c0 :: rest) =
          (if c0 = '\n' then rest.isEmpty
           else if c0 = '|' then mayaRun true rest
           else mayaSegChar c0 && mayaRun false rest) from rfl] at h
      by_cases h1 : c0 = '\n'
      · subst h1
        rw [if_pos rfl] at h
        rw [List.isEmpty_iff] at h
        subst h
        rcases List.mem_singleton.mp hc with rfl
        right; right; rfl
      · rw [if_neg h1] at h
        by_cases h2 : c0 = '|'
        · subst h2
          rw [if_pos rfl] at h
          rcases List.mem_cons.mp hc with rfl | hc2
          · right; left; rfl
          · exact ih true h c hc2
        · rw [if_neg h2, Bool.and_eq_true] at h
          rcases List.mem_cons.mp hc with rfl | hc2
          · left; exact h.1
          · exact ih false h.2 c hc2
    · rw [show mayaRun true (c0 :: rest) =
          (mayaSegStart c0 && mayaRun false rest) from rfl] at h
      rw [Bool.and_eq_true] at h
      rcases List.mem_cons.mp hc with rfl | hc2
      · exact Or.inl (mayaSegStart_imp_segChar h.1)
      · exact ih false h.2 c hc2

theorem maya_path_match_chars {l : List Char} (h : maya_path_match l = true) :
    ∀ c ∈ l, mayaSegChar c = true ∨ c = '|' ∨ c = '\n' := by
  intro c hc
  cases l with
  | nil => cases hc
  | cons c0 rest =>
    rw [show maya_path_match (c0 :: rest) =
        (if c0 == '|' then mayaRun true rest else mayaRun true (c0 :: rest))
        from rfl] at h
    by_cases h0 : c0 = '|'
    · subst h0
      rw [if_pos (show ('|' == '|') = true from rfl)] at h
      rcases List.mem_cons.mp hc with rfl | hc2
      · right; left; rfl
      · exact mayaRun_chars rest true h c hc2
    · rw [if_neg (by simpa using h0)] at h
      exact mayaRun_chars (c0 :: rest) true h c hc

/-- C1 evidence: the claim says classify is total and maps empty or all-blank
text to Unknown, and the function's own docstring promises UNKNOWN for
unclassifiable text; but for every behaviour of the library calls, the code
reaches `lines[0]` with `lines` empty on such input and raises `IndexError`
(modelled as `none`) instead of returning UNKNOWN. -/
theorem classify_crashes_on_blank_text (pp fb : List Char → Bool) :
    classify_text pp fb (("").data) = none ∧
    classify_text pp fb ((" \n\t\n ").data) = none :=
  ⟨rfl, rfl⟩

/-- C3: the kinds are checked in the fixed order PythonScript, FilePaths,
MayaDagPath, Unknown, first match wins: any text satisfying the PythonScript
condition classifies as PythonScript (whatever its first line looks like),
and when the PythonScript check fails, a first non-empty line satisfying the
FilePaths rule classifies as FilePaths — in particular also whenever it
matches the MayaDagPath grammar as well. -/
theorem classify_precedence (pp fb : List Char → Bool) (text : List Char) :
    (looks_like_python_script pp text = true →
      classify_text pp fb text = some TextKind.PYTHON_SCRIPT) ∧
    (looks_like_python_script pp text = false →
      ∀ l0 rest, split_nonempty_lines text = l0 :: rest →
        looks_like_file_path fb l0 = true →
        classify_text pp fb text = some TextKind.FILE_PATHS) := by
  constructor
  · intro h
    unfold classify_text
    rw [if_pos h]
  · intro h l0 rest hsplit hfp
    unfold classify_text
    rw [if_neg (by simp [h]), hsplit]
    show (if looks_like_file_path fb l0 then some TextKind.FILE_PATHS
      else if looks_like_maya_dag_path fb l0 then some TextKind.MAYA_DAG_PATHS
      else some TextKind.UNKNOWN) = some TextKind.FILE_PATHS
    rw [if_pos hfp]

/-- C3 witness: "a/b\nc/d" under a parse oracle that accepts it is a
PythonScript even though its first line is path-like; "./x/y" with the
PythonScript check failing is FilePaths. -/
theorem classify_precedence_witness :
    (looks_like_python_script (fun _ => true) (("a/b\nc/d").data) = true ∧
     classify_text (fun _ => true) (fun _ => true) (("a/b\nc/d").data) =
       some TextKind.PYTHON_SCRIPT) ∧
    (looks_like_python_script (fun _ => false) (("./x/y").data) = false ∧
     split_nonempty_lines (("./x/y").data) = [("./x/y").data] ∧
     looks_like_file_path (fun _ => false) (("./x/y").data) = true ∧
     classify_text (fun _ => false) (fun _ => false) (("./x/y").data) =
       some TextKind.FILE_PATHS) :=
  ⟨⟨by decide,
    (classify_precedence (fun _ => true) (fun _ => true) (("a/b\nc/d").data)).1
      (by decide)⟩,
   ⟨by decide, by decide, by decide,
    (classify_precedence (fun _ => false) (fun _ => false) (("./x/y").data)).2
      (by decide) (("./x/y").data) [] (by decide) (by decide)⟩⟩

theorem contains_false_of (l big : List Char) (x : Char)
    (hsub : ∀ c ∈ l, c ∈ big) (h : big.contains x = false) :
    l.contains x = false := by
  by_contra hc
  rw [Bool.not_eq_false] at hc
  have hmem : x ∈ big := hsub x (List.elem_iff.mp hc)
  have hbig : big.contains x = true := List.elem_iff.mpr hmem
  rw [h] at hbig
  exact Bool.noConfusion hbig

/-- C5: when the PythonScript check fails, classify returns FilePaths iff the
first non-empty stripped line contains a path separator and matches the
Windows drive form, the UNC form, the POSIX form, or the pathlib fallback;
and a text containing no slash and no backslash never classifies as
FilePaths. -/
theorem classify_file_paths_iff (pp fb : List Char → Bool) (text : List Char) :
    (∀ l0 rest, split_nonempty_lines text = l0 :: rest →
      looks_like_python_script pp text = false →
      (classify_text pp fb text = some TextKind.FILE_PATHS ↔
        has_pathlike_separators l0 = true ∧
          (windows_drive_path l0 = true ∨ unc_path l0 = true ∨
           posix_path l0 = true ∨ fb l0 = true))) ∧
    (text.contains '/' = false → text.contains '\\' = false →
      classify_text pp fb text ≠ some TextKind.FILE_PATHS) := by
  constructor
  · intro l0 rest hsplit hpy
    have hcls : classify_text pp fb text =
        (if looks_like_file_path fb l0 then some TextKind.FILE_PATHS
         else if looks_like_maya_dag_path fb l0 then some TextKind.MAYA_DAG_PATHS
         else some TextKind.UNKNOWN) := by
      unfold classify_text
      rw [if_neg (by simp [hpy]), hsplit]
    rw [hcls, ← looks_like_file_path_iff fb l0]
    by_cases hfp : looks_like_file_path fb l0 = true
    · simp [hfp]
    · simp only [Bool.not_eq_true] at hfp
      rw [if_neg (by simp [hfp]), hfp]
      constructor
      · intro hEq
        split at hEq <;> simp_all
      · intro hc
        exact Bool.noConfusion hc
  · intro h1 h2 hEq
    by_cases hpy : looks_like_python_script pp text = true
    · unfold classify_text at hEq
      rw [if_pos hpy] at hEq
      simp at hEq
    · cases hsp : split_nonempty_lines text with
      | nil =>
        unfold classify_text at hEq
        rw [if_neg hpy, hsp] at hEq
        exact Option.noConfusion hEq
      | cons l0 rest =>
        have hcls : classify_text pp fb text =
            (if looks_like_file_path fb l0 then some TextKind.FILE_PATHS
             else if looks_like_maya_dag_path fb l0 then some TextKind.MAYA_DAG_PATHS
             else some TextKind.UNKNOWN) := by
          unfold classify_text
          rw [if_neg hpy, hsp]
        rw [hcls] at hEq
        have hmem0 : l0 ∈ split_nonempty_lines text := by
          rw [hsp]; exact List.mem_cons_self _ _
        have hsub := (split_nonempty_lines_mem hmem0).1
        have hsep : has_pathlike_separators l0 = false := by
          unfold has_pathlike_separators
          rw [contains_false_of l0 text '\\' hsub h2,
              contains_false_of l0 text '/' hsub h1]
          rfl
        have hfp : looks_like_file_path fb l0 = false := by
          unfold looks_like_file_path
          rw [hsep]
          rfl
        rw [if_neg (by simp [hfp])] at hEq
        by_cases hm : looks_like_maya_dag_path fb l0 = true
        · rw [if_pos hm] at hEq
          simp at hEq
        · rw [if_neg hm] at hEq
          simp at hEq

/-- C5 witness: "./ab" (PythonScript check failing) classifies as FilePaths
exactly through the POSIX arm of the disjunction; "xyz" holds no separator
and does not classify as FilePaths. -/
theorem classify_file_paths_iff_witness :
    (split_nonempty_lines (("./ab").data) = [("./ab").data] ∧
     looks_like_python_script (fun _ => false) (("./ab").data) = false ∧
     (classify_text (fun _ => false) (fun _ => false) (("./ab").data) =
        some TextKind.FILE_PATHS ↔
       has_pathlike_separators (("./ab").data) = true ∧
         (windows_drive_path (("./ab").data) = true ∨
          unc_path (("./ab").data) = true ∨
          posix_path (("./ab").data) = true ∨
          (fun _ : List Char => false) (("./ab").data) = true))) ∧
    ((("xyz").data.contains '/' = false ∧ ("xyz").data.contains '\\' = false) ∧
     classify_text (fun _ => false) (fun _ => false) (("xyz").data) ≠
       some TextKind.FILE_PATHS) :=
  ⟨⟨by decide, by decide,
    (classify_file_paths_iff (fun _ => false) (fun _ => false)
      (("./ab").data)).1 (("./ab").data) [] (by decide) (by decide)⟩,
   ⟨⟨by decide, by decide⟩,
    (classify_file_paths_iff (fun _ => false) (fun _ => false)
      (("xyz").data)).2 (by decide) (by decide)⟩⟩

/-- C6: the PythonScript check succeeds iff the trimmed text is non-empty,
the parse oracle accepts it (a syntax failure falls through without
raising), and the trimmed text contains a structural hint token, contains a
newline, or splits into more than 3 whitespace-delimited tokens; and under
any oracle accepting it, "import os\nprint(1)" classifies as PythonScript. -/
theorem python_script_iff (pp : List Char → Bool) (text : List Char) :
    (looks_like_python_script pp text = true ↔
      pyStrip text ≠ [] ∧ pp (pyStrip text) = true ∧
        (pyHintTokens.any (fun tok => isSubstrOf tok (pyStrip text)) = true ∨
         isSubstrOf (("\n").data) (pyStrip text) = true ∨
         3 < (pySplit (pyStrip text)).length)) ∧
    (∀ fb : List Char → Bool, pp (("import os\nprint(1)").data) = true →
      classify_text pp fb (("import os\nprint(1)").data) =
        some TextKind.PYTHON_SCRIPT) := by
  constructor
  · unfold looks_like_python_script
    cases he : (pyStrip text).isEmpty
    · have hne : pyStrip text ≠ [] := by
        intro hh
        rw [hh] at he
        exact Bool.noConfusion he
      cases hp : pp (pyStrip text)
      · simp [hne, hp]
      · simp [hne, hp]
        exact or_assoc
    · have heq : pyStrip text = [] := List.isEmpty_iff.mp he
      simp [heq]
  · intro fb hpp
    have hls : looks_like_python_script pp (("import os\nprint(1)").data) = true := by
      unfold looks_like_python_script
      rw [if_neg (by decide)]
      rw [if_pos (show pp (pyStrip (("import os\nprint(1)").data)) = true from hpp)]
      decide
    unfold classify_text
    rw [if_pos hls]

/-- C6 witness: with an oracle accepting everything, the spec's example
classifies as PythonScript. -/
theorem python_script_iff_witness :
    classify_text (fun _ => true) (fun _ => false)
      (("import os\nprint(1)").data) = some TextKind.PYTHON_SCRIPT :=
  (python_script_iff (fun _ => true) (("import os\nprint(1)").data)).2
    (fun _ => false) (by decide)

theorem segChar_not_space {c : Char} (h : pyIsSpace c = true) :
    mayaSegChar c = false := by
  simp only [pyIsSpace, Bool.or_eq_true, beq_iff_eq] at h
  rcases h with ((((((((((((((((((((((((((((h|h)|h)|h)|h)|h)|h)|h)|h)|h)|h)|h)|h)|h)|h)|h)|h)|h)|h)|h)|h)|h)|h)|h)|h)|h)|h)|h)|h) <;> subst h <;> decide

/-- C7: when neither the PythonScript nor the FilePaths check matches,
classify returns MayaDagPath iff the first non-empty stripped line contains
no whitespace and matches the DAG grammar (optional leading pipe, then one
or more pipe-separated segments over [A-Za-z0-9_][A-Za-z0-9_:]*); and the
spec's two examples classify as MayaDagPath. -/
theorem classify_maya_iff (pp fb : List Char → Bool) (text : List Char) :
    (∀ l0 rest, split_nonempty_lines text = l0 :: rest →
      looks_like_python_script pp text = false →
      looks_like_file_path fb l0 = false →
      (classify_text pp fb text = some TextKind.MAYA_DAG_PATHS ↔
        (∀ c ∈ l0, pyIsSpace c = false) ∧ maya_path_match l0 = true)) ∧
    classify_text pp fb (("|group1|pSphere1").data) =
      some TextKind.MAYA_DAG_PATHS ∧
    (pp (("ns:grp|ns:meshShape1").data) = false →
      classify_text pp fb (("ns:grp|ns:meshShape1").data) =
        some TextKind.MAYA_DAG_PATHS) := by
  refine ⟨?_, ?_, ?_⟩
  · intro l0 rest hsplit hpy hfp
    have hmem0 : l0 ∈ split_nonempty_lines text := by
      rw [hsplit]; exact List.mem_cons_self _ _
    have hcls : classify_text pp fb text =
        (if looks_like_maya_dag_path fb l0 then some TextKind.MAYA_DAG_PATHS
         else some TextKind.UNKNOWN) := by
      unfold classify_text
      rw [if_neg (by simp [hpy]), hsplit]
      show (if looks_like_file_path fb l0 then some TextKind.FILE_PATHS
        else if looks_like_maya_dag_path fb l0 then some TextKind.MAYA_DAG_PATHS
        else some TextKind.UNKNOWN) = _
      rw [if_neg (by simp [hfp])]
    have hmaya : looks_like_maya_dag_path fb l0 =
        (if l0.contains ' ' || l0.contains '\t' then false
         else maya_path_match l0) := by
      unfold looks_like_maya_dag_path
      rw [if_neg (by simp [hfp])]
    rw [hcls, hmaya]
    by_cases hsp2 : (l0.contains ' ' || l0.contains '\t') = true
    · rw [if_pos hsp2]
      constructor
      · intro hEq
        simp at hEq
      · rintro ⟨hnos, _⟩
        exfalso
        rw [Bool.or_eq_true] at hsp2
        rcases hsp2 with h | h
        · exact absurd (hnos ' ' (List.elem_iff.mp h)) (by decide)
        · exact absurd (hnos '\t' (List.elem_iff.mp h)) (by decide)
    · rw [if_neg hsp2]
      constructor
      · intro hEq
        by_cases hm : maya_path_match l0 = true
        · refine ⟨?_, hm⟩
          intro c hc
          rcases maya_path_match_chars hm c hc with hseg | hpipe | hnl
          · by_contra hws
            rw [Bool.not_eq_false] at hws
            rw [segChar_not_space hws] at hseg
            exact Bool.noConfusion hseg
          · subst hpipe; decide
          · exfalso
            subst hnl
            exact absurd ((split_nonempty_lines_mem hmem0).2 '\n' hc) (by decide)
        · rw [if_neg hm] at hEq
          simp at hEq
      · rintro ⟨hnos, hm⟩
        rw [if_pos hm]
  · have hls : looks_like_python_script pp (("|group1|pSphere1").data) = false := by
      unfold looks_like_python_script
      rw [if_neg (by decide)]
      cases hpp : pp (pyStrip (("|group1|pSphere1").data)) <;> decide
    have hfp : looks_like_file_path fb (("|group1|pSphere1").data) = false := by
      unfold looks_like_file_path
      rw [show has_pathlike_separators (("|group1|pSphere1").data) = false from
        by decide]
      rfl
    have hmaya : looks_like_maya_dag_path fb (("|group1|pSphere1").data) = true := by
      unfold looks_like_maya_dag_path
      rw [hfp]
      decide
    unfold classify_text
    rw [if_neg (by simp [hls])]
    rw [show split_nonempty_lines (("|group1|pSphere1").data) =
      [("|group1|pSphere1").data] from by decide]
    show (if looks_like_file_path fb (("|group1|pSphere1").data) then
        some TextKind.FILE_PATHS
      else if looks_like_maya_dag_path fb (("|group1|pSphere1").data) then
        some TextKind.MAYA_DAG_PATHS
      else some TextKind.UNKNOWN) = some TextKind.MAYA_DAG_PATHS
    rw [if_neg (by simp [hfp]), if_pos hmaya]
  · intro hpp2
    have hls : looks_like_python_script pp (("ns:grp|ns:meshShape1").data) = false := by
      unfold looks_like_python_script
      rw [if_neg (by decide)]
      have hpp' : pp (pyStrip (("ns:grp|ns:meshShape1").data)) = false := hpp2
      rw [if_neg (by simp [hpp'])]
    have hfp : looks_like_file_path fb (("ns:grp|ns:meshShape1").data) = false := by
      unfold looks_like_file_path
      rw [show has_pathlike_separators (("ns:grp|ns:meshShape1").data) = false from
        by decide]
      rfl
    have hmaya : looks_like_maya_dag_path fb (("ns:grp|ns:meshShape1").data) = true := by
      unfold looks_like_maya_dag_path
      rw [hfp]
      decide
    unfold classify_text
    rw [if_neg (by simp [hls])]
    rw [show split_nonempty_lines (("ns:grp|ns:meshShape1").data) =
      [("ns:grp|ns:meshShape1").data] from by decide]
    show (if looks_like_file_path fb (("ns:grp|ns:meshShape1").data) then
        some TextKind.FILE_PATHS
      else if looks_like_maya_dag_path fb (("ns:grp|ns:meshShape1").data) then
        some TextKind.MAYA_DAG_PATHS
      else some TextKind.UNKNOWN) = some TextKind.MAYA_DAG_PATHS
    rw [if_neg (by simp [hfp]), if_pos hmaya]

/-- C7 witness: both spec examples classify as MayaDagPath under oracles
reflecting the real library behaviour on them. -/
theorem classify_maya_iff_witness :
    classify_text (fun _ => false) (fun _ => false)
      (("|group1|pSphere1").data) = some TextKind.MAYA_DAG_PATHS ∧
    classify_text (fun _ => false) (fun _ => false)
      (("ns:grp|ns:meshShape1").data) = some TextKind.MAYA_DAG_PATHS :=
  ⟨(classify_maya_iff (fun _ => false) (fun _ => false) []).2.1,
   (classify_maya_iff (fun _ => false) (fun _ => false) []).2.2 (by decide)⟩

theorem not_contains_of_segChar {w : List Char}
    (hall : ∀ c ∈ w, mayaSegChar c = true) {x : Char}
    (hx : mayaSegChar x = false) : w.contains x = false := by
  by_contra hc
  rw [Bool.not_eq_false] at hc
  have hmem := hall x (List.elem_iff.mp hc)
  rw [hx] at hmem
  exact Bool.noConfusion hmem

theorem mayaRun_false_of_all_segChar :
    ∀ cs : List Char, (∀ c ∈ cs, mayaSegChar c = true) →
      mayaRun false cs = true := by
  intro cs
  induction cs with
  | nil => intro _; rfl
  | cons c rest ih =>
    intro hall
    have hc := hall c (List.mem_cons_self _ _)
    rw [show mayaRun false (c :: rest) =
        (if c = '\n' then rest.isEmpty
         else if c = '|' then mayaRun true rest
         else mayaSegChar c && mayaRun false rest) from rfl]
    rw [if_neg (by intro hh; rw [hh] at hc; exact absurd hc (by decide))]
    rw [if_neg (by intro hh; rw [hh] at hc; exact absurd hc (by decide))]
    rw [hc, ih (fun c2 h2 => hall c2 (List.mem_cons_of_mem c h2))]
    rfl

/-- C9: a text whose first non-empty stripped line is one bare word matching
[A-Za-z0-9_][A-Za-z0-9_:]*, and whose trimmed form has no structural hint
token, no newline, and at most 3 whitespace-delimited tokens (so the
PythonScript condition cannot hold, whatever the parse oracle says),
classifies as MayaDagPath rather than Unknown. -/
theorem bare_word_is_maya (pp fb : List Char → Bool) (text : List Char)
    (w : List Char) (rest : List (List Char))
    (hsplit : split_nonempty_lines text = w :: rest)
    (hword : ∃ c0 cs, w = c0 :: cs ∧ mayaSegStart c0 = true ∧
      ∀ c ∈ cs, mayaSegChar c = true)
    (h1 : pyHintTokens.any (fun tok => isSubstrOf tok (pyStrip text)) = false)
    (h2 : isSubstrOf (("\n").data) (pyStrip text) = false)
    (h3 : (pySplit (pyStrip text)).length ≤ 3) :
    classify_text pp fb text = some TextKind.MAYA_DAG_PATHS := by
  rcases hword with ⟨c0, cs, rfl, hstart, hall⟩
  have hallw : ∀ c ∈ c0 :: cs, mayaSegChar c = true := by
    intro c hc
    rcases List.mem_cons.mp hc with rfl | hc2
    · exact mayaSegStart_imp_segChar hstart
    · exact hall c hc2
  have hpy : looks_like_python_script pp text = false := by
    unfold looks_like_python_script
    cases he : (pyStrip text).isEmpty
    · cases hp : pp (pyStrip text)
      · rfl
      · show (pyHintTokens.any (fun tok => isSubstrOf tok (pyStrip text)) ||
            isSubstrOf (("\n").data) (pyStrip text) ||
            decide (3 < (pySplit (pyStrip text)).length)) = false
        rw [h1, h2]
        simp [Nat.not_lt.mpr h3]
    · rfl
  have hsep : has_pathlike_separators (c0 :: cs) = false := by
    unfold has_pathlike_separators
    rw [not_contains_of_segChar hallw (show mayaSegChar '\\' = false from by decide),
        not_contains_of_segChar hallw (show mayaSegChar '/' = false from by decide)]
    rfl
  have hfp : looks_like_file_path fb (c0 :: cs) = false := by
    unfold looks_like_file_path
    rw [hsep]
    rfl
  have hc0 : ¬(c0 == '|') = true := by
    intro hh
    have heq : c0 = '|' := by simpa using hh
    rw [heq] at hstart
    exact absurd hstart (by decide)
  have hmpm : maya_path_match (c0 :: cs) = true := by
    rw [show maya_path_match (c0 :: cs) =
      (if c0 == '|' then mayaRun true cs else mayaRun true (c0 :: cs)) from rfl]
    rw [if_neg hc0]
    rw [show mayaRun true (c0 :: cs) =
      (mayaSegStart c0 && mayaRun false cs) from rfl]
    rw [hstart, mayaRun_false_of_all_segChar cs hall]
    rfl
  have hmaya : looks_like_maya_dag_path fb (c0 :: cs) = true := by
    unfold looks_like_maya_dag_path
    rw [hfp]
    rw [not_contains_of_segChar hallw (show mayaSegChar ' ' = false from by decide),
        not_contains_of_segChar hallw (show mayaSegChar '\t' = false from by decide)]
    simpa using hmpm
  unfold classify_text
  rw [if_neg (by simp [hpy]), hsplit]
  show (if looks_like_file_path fb (c0 :: cs) then some TextKind.FILE_PATHS
    else if looks_like_maya_dag_path fb (c0 :: cs) then some TextKind.MAYA_DAG_PATHS
    else some TextKind.UNKNOWN) = some TextKind.MAYA_DAG_PATHS
  rw [if_neg (by simp [hfp]), if_pos hmaya]

/-- C9 witness: the plain word "hello" classifies as MayaDagPath even under
a parse oracle that accepts everything. -/
theorem bare_word_is_maya_witness :
    classify_text (fun _ => true) (fun _ => true) (("hello").data) =
      some TextKind.MAYA_DAG_PATHS :=
  bare_word_is_maya (fun _ => true) (fun _ => true) (("hello").data)
    (("hello").data) [] (by decide)
    ⟨'h', ("ello").data, rfl, by decide, by decide⟩
    (by decide) (by decide) (by decide)
